import Mathlib

/-!
Verification of the axe-sarif-converter conversion pipeline.

The development shallowly embeds the orchestration code of `src/index.ts`,
`src/baseline.ts` and `src/cli.ts`, together with a model (from the
specification) of the conversion engine those files invoke.  Effectful
JavaScript code is embedded by passing the ambient world (spawn results,
file contents, environment data) explicitly.
-/

namespace AxeSarif

/-! ## SARIF data model -/

/-- Outcome category of a canonical finding, one of
violation / pass / incomplete / inapplicable. -/
inductive OutcomeCategory where
  | violation
  | pass
  | incomplete
  | inapplicable
deriving DecidableEq, Repr

/-- SARIF result level. -/
inductive SarifLevel where
  | error
  | warning
  | note
  | none
deriving DecidableEq, Repr

/-- Modelled from the spec: the Canonical Finding, the normalized unit
produced by the Result Normalizer for every (rule, DOM node) occurrence
(the normalizer itself, `axe-raw-sarif-converter.ts` / `sarif-converter.ts`,
is not part of the visible sources). -/
structure CanonicalFinding where
  ruleId : String
  ruleDescription : String
  helpUri : String
  outcomeCategory : OutcomeCategory
  targetSelector : List String
  snippet : Option String
  message : String
deriving DecidableEq, Repr

/-- One entry of the deduplicated rule catalog attached to a SARIF run. -/
structure RuleCatalogEntry where
  ruleId : String
  ruleDescription : String
  helpUri : String
deriving DecidableEq, Repr

/-- Environment / invocation data captured once per SARIF run. -/
structure EnvironmentData where
  toolVersion : String
  startTimeUtc : String
  endTimeUtc : String
  targetPageUrl : String
deriving DecidableEq, Repr

/-- One SARIF result record produced for one canonical finding.  The
`fingerprints` field models the SARIF partialFingerprints map as an
association list. -/
structure ResultRecord where
  ruleIndex : Nat
  level : SarifLevel
  message : String
  uri : String
  logicalLocations : List String
  fingerprints : List (String × String)
  baselineState : Option String
deriving DecidableEq, Repr

/-- One SARIF run: its own rule catalog, results and invocation block. -/
structure SarifRun where
  rules : List RuleCatalogEntry
  results : List ResultRecord
  invocation : EnvironmentData
deriving DecidableEq, Repr

/-- The top-level SARIF log: version metadata plus an ordered sequence of
runs. -/
structure SarifLog where
  version : String
  schemaUri : String
  runs : List SarifRun
deriving DecidableEq, Repr

/-! ## Baseline matcher (`src/baseline.ts`) -/

/-- Result of `spawnSync` on the external SARIF Multitool process:
`error` is non-null when the process could not be launched, otherwise
`status` is its exit code and `stdout` its captured standard output. -/
structure SpawnResult where
  error : Option String
  status : Int
  stdout : String
deriving DecidableEq, Repr

/-- The ambient world `applyBaselineFile` interacts with: the outcome of
spawning the external matching process and the annotated results file that
the process leaves behind (`none` when the file is missing, unreadable or
not parseable JSON; `some log` when it reads and parses). -/
structure BaselineWorld where
  spawnResult : SpawnResult
  annotatedResult : Option SarifLog
deriving DecidableEq, Repr

/-- Errors thrown by `applyBaselineFile` (`baseline.ts` throws `Error`
objects carrying the embedded message strings; an unparseable annotated
file surfaces as the exception thrown by `JSON.parse`). -/
inductive BaselineError where
  | launchError (message : String)
  | executionError (message : String)
  | resultParseError
deriving DecidableEq, Repr

/-- Outcome of one `applyBaselineFile` call: the returned log or thrown
error, plus whether the temporary working directory was removed
(`fs.rmdirSync tmpDir`) before control left the function. -/
structure BaselineOutcome where
  result : Except BaselineError SarifLog
  tmpDirRemoved : Bool
deriving Repr

/-- Whether an `Except` value is a normal return. -/
def isSuccess {ε α : Type} : Except ε α → Bool
  | .ok _ => true
  | .error _ => false

/-- Embedding of `applyBaselineFile` (`src/baseline.ts`, lines 10-54).
It writes the current log to a temporary file, spawns the SARIF Multitool
with the `match-results-forward` verb, then: throws a launch error when
`spawnSync` reports `error != null`; throws an execution error naming the
exit code and captured stdout when `status !== 0`; otherwise reads and
parses the annotated results file (throwing when that fails), removes the
temporary directory and returns the annotated log.  The `rmdirSync` call
sits after the read/parse on the success path only. -/
def applyBaselineFile (w : BaselineWorld) (results : SarifLog)
    (baselineFile : String) : BaselineOutcome :=
  match w.spawnResult.error with
  | some cause =>
      { result := .error (.launchError
          ("Error occurred while executing SARIF Multitool to perform baselining: "
            ++ cause)),
        tmpDirRemoved := false }
  | none =>
      if w.spawnResult.status ≠ 0 then
        { result := .error (.executionError
            ("SARIF Multitool failed with exit code "
              ++ toString w.spawnResult.status
              ++ ". Full output:\n" ++ w.spawnResult.stdout)),
          tmpDirRemoved := false }
      else
        match w.annotatedResult with
        | none => { result := .error .resultParseError, tmpDirRemoved := false }
        | some annotated => { result := .ok annotated, tmpDirRemoved := true }

/-! ## Input shapes and the result normalizer (modelled from the spec) -/

/-- Modelled from the spec: a reporter-v1 entry, with rule metadata nested
inside each node-level entry. -/
structure V1Entry where
  ruleId : String
  ruleDescription : String
  helpUri : String
  outcomeCategory : OutcomeCategory
  targetSelector : List String
  snippet : Option String
  message : String
deriving DecidableEq, Repr

/-- Modelled from the spec: one node of a reporter-v2 rule group. -/
structure V2Node where
  targetSelector : List String
  snippet : Option String
  message : String
deriving DecidableEq, Repr

/-- Modelled from the spec: one reporter-v2 rule group, with rule metadata
hoisted once per rule over its nodes. -/
structure V2Rule where
  ruleId : String
  ruleDescription : String
  helpUri : String
  nodes : List V2Node
deriving DecidableEq, Repr

/-- Modelled from the spec: the reporter-v2 shape, with explicit top-level
arrays per outcome category. -/
structure V2Results where
  violations : List V2Rule
  passes : List V2Rule
  incomplete : List V2Rule
  inapplicable : List V2Rule
deriving DecidableEq, Repr

/-- Modelled from the spec: one raw (pre-aggregation) rule execution,
holding arrays of failing / passing / incomplete nodes without a
pre-split outcome category. -/
structure RawRuleRun where
  ruleId : String
  ruleDescription : String
  helpUri : String
  violationNodes : List V2Node
  passNodes : List V2Node
  incompleteNodes : List V2Node
deriving DecidableEq, Repr

/-- Modelled from the spec: the three supported input finding-set shapes. -/
inductive InputShape where
  | v1 (entries : List V1Entry)
  | v2 (results : V2Results)
  | raw (ruleRuns : List RawRuleRun)
deriving DecidableEq, Repr

/-- Canonical finding recovered from one v1 entry. -/
def findingOfV1 (e : V1Entry) : CanonicalFinding :=
  { ruleId := e.ruleId, ruleDescription := e.ruleDescription,
    helpUri := e.helpUri, outcomeCategory := e.outcomeCategory,
    targetSelector := e.targetSelector, snippet := e.snippet,
    message := e.message }

/-- Canonical finding recovered from one node of a v2 rule group placed in
the array for `category`. -/
def findingOfV2Node (category : OutcomeCategory) (r : V2Rule) (n : V2Node) :
    CanonicalFinding :=
  { ruleId := r.ruleId, ruleDescription := r.ruleDescription,
    helpUri := r.helpUri, outcomeCategory := category,
    targetSelector := n.targetSelector, snippet := n.snippet,
    message := n.message }

/-- Canonical findings of one v2 category array. -/
def findingsOfV2Category (category : OutcomeCategory) (rules : List V2Rule) :
    List CanonicalFinding :=
  (rules.map (fun r => r.nodes.map (findingOfV2Node category r))).flatten

/-- Canonical findings of one raw rule run; the outcome category is derived
from which node array a node appears in. -/
def findingsOfRawRun (r : RawRuleRun) : List CanonicalFinding :=
  r.violationNodes.map (findingOfV2Node .violation
      { ruleId := r.ruleId, ruleDescription := r.ruleDescription,
        helpUri := r.helpUri, nodes := [] })
    ++ r.passNodes.map (findingOfV2Node .pass
      { ruleId := r.ruleId, ruleDescription := r.ruleDescription,
        helpUri := r.helpUri, nodes := [] })
    ++ r.incompleteNodes.map (findingOfV2Node .incomplete
      { ruleId := r.ruleId, ruleDescription := r.ruleDescription,
        helpUri := r.helpUri, nodes := [] })

/-- Modelled from the spec: the Result Normalizer, absorbing the three
supported shapes into one canonical finding sequence in input encounter
order. -/
def normalize : InputShape → List CanonicalFinding
  | .v1 entries => entries.map findingOfV1
  | .v2 r =>
      findingsOfV2Category .violation r.violations
        ++ findingsOfV2Category .pass r.passes
        ++ findingsOfV2Category .incomplete r.incomplete
        ++ findingsOfV2Category .inapplicable r.inapplicable
  | .raw ruleRuns => (ruleRuns.map findingsOfRawRun).flatten

/-! ## Rule catalog builder (modelled from the spec) -/

/-- Catalog entry established by the first occurrence of a rule id. -/
def catalogEntryOf (f : CanonicalFinding) : RuleCatalogEntry :=
  { ruleId := f.ruleId, ruleDescription := f.ruleDescription,
    helpUri := f.helpUri }

/-- One step of catalog construction: a finding whose rule id is already
present is skipped, otherwise its rule is appended. -/
def addFindingToCatalog (catalog : List RuleCatalogEntry)
    (f : CanonicalFinding) : List RuleCatalogEntry :=
  if catalog.any (fun e => e.ruleId == f.ruleId) then catalog
  else catalog ++ [catalogEntryOf f]

/-- Modelled from the spec: the Rule Catalog Builder — first occurrence of
a rule id establishes its entry, later occurrences are deduplicated,
catalog order is first-seen order. -/
def buildRuleCatalog (findings : List CanonicalFinding) :
    List RuleCatalogEntry :=
  findings.foldl addFindingToCatalog []

/-- Catalog ordinal assigned to a rule id (index of its entry). -/
def ruleIndexOf (catalog : List RuleCatalogEntry) (ruleId : String) : Nat :=
  catalog.findIdx (fun e => e.ruleId == ruleId)

/-- First-seen order of a list of rule ids, as the spec words it: each id
appears exactly once, at the position of its first occurrence.  Stated
separately from the catalog builder so the builder can be compared against
it. -/
def firstSeenOrder (ids : List String) : List String :=
  ids.foldl (fun seen x => if x ∈ seen then seen else seen ++ [x]) []

/-! ## Result mapper (modelled from the spec) -/

/-- Modelled from the spec: the level mapping of the Result Mapper. -/
def levelFromOutcome : OutcomeCategory → SarifLevel
  | .violation => SarifLevel.error
  | .incomplete => SarifLevel.warning
  | .pass => SarifLevel.none
  | .inapplicable => SarifLevel.none

/-- Modelled from the spec: the stable fingerprint key, derived
deterministically from the rule id plus the whitespace-normalized target
selector, independent of message text. -/
def buildFingerprint (ruleId : String) (targetSelector : List String) :
    String :=
  ruleId ++ ":" ++ String.intercalate ">" (targetSelector.map String.trim)

/-- Modelled from the spec: the Result Mapper, producing one SARIF result
record from a canonical finding and the run's rule catalog. -/
def mapResult (catalog : List RuleCatalogEntry) (pageUrl : String)
    (f : CanonicalFinding) : ResultRecord :=
  { ruleIndex := ruleIndexOf catalog f.ruleId,
    level := levelFromOutcome f.outcomeCategory,
    message := f.message,
    uri := pageUrl,
    logicalLocations := f.targetSelector,
    fingerprints := [("axeFingerprint/v1", buildFingerprint f.ruleId f.targetSelector)],
    baselineState := none }

/-! ## Converters and orchestration (`src/index.ts`) -/

/-- Options accepted by `convertAxeToSarif` (`converter-options.ts`): an
optional baseline file path. -/
structure ConverterOptions where
  baselineFile : Option String := none
deriving DecidableEq, Repr

/-- Grouped axe results consumed by `convertAxeToSarif`: page url, scan
timestamp, engine version and the finding-set (v1 or v2 grouped shape, as
produced by the axe reporters). -/
structure AxeResults where
  url : String
  timestamp : String
  engineVersion : String
  input : InputShape
deriving DecidableEq, Repr

/-- Modelled from the spec: environment data derived from a grouped axe
result set (tool version and scan timestamp come from the input itself). -/
def getEnvironmentDataFromResults (axeResults : AxeResults) :
    EnvironmentData :=
  { toolVersion := axeResults.engineVersion,
    startTimeUtc := axeResults.timestamp,
    endTimeUtc := axeResults.timestamp,
    targetPageUrl := axeResults.url }

/-- SARIF version string of produced logs. -/
def sarifVersion : String := "2.1.0"

/-- SARIF schema URI of produced logs. -/
def sarifSchemaUri : String :=
  "https://raw.githubusercontent.com/oasis-tcs/sarif-spec/master/Schemata/sarif-schema-2.1.0.json"

/-- Single SARIF run assembled from a canonical finding sequence and
environment data. -/
def assembleRun (environmentData : EnvironmentData)
    (findings : List CanonicalFinding) : SarifRun :=
  let catalog := buildRuleCatalog findings
  { rules := catalog,
    results := findings.map (mapResult catalog environmentData.targetPageUrl),
    invocation := environmentData }

/-- Modelled from the spec: `defaultSarifConverter().convert`
(`sarif-converter.ts`, not among the visible sources) — one grouped
finding-set becomes one SARIF log containing exactly one run. -/
def sarifConverterConvert (axeResults : AxeResults)
    (_options : ConverterOptions) : SarifLog :=
  { version := sarifVersion, schemaUri := sarifSchemaUri,
    runs := [assembleRun (getEnvironmentDataFromResults axeResults)
      (normalize axeResults.input)] }

/-- Embedding of `convertAxeToSarif` (`src/index.ts`, lines 16-27):
defaults the options, converts to a single-run log, then applies the
baseline file exactly when `options.baselineFile != null`. -/
def convertAxeToSarif (w : BaselineWorld) (axeResults : AxeResults)
    (options : Option ConverterOptions) : Except BaselineError SarifLog :=
  let opts := options.getD {}
  let results := sarifConverterConvert axeResults opts
  match opts.baselineFile with
  | some baselineFile => (applyBaselineFile w results baselineFile).result
  | none => .ok results

/-- Ambient host environment read by the reporter entry point. -/
structure Environment where
  currentTime : String
  axeVersion : String
  pageUrl : String
deriving DecidableEq, Repr

/-- Modelled from the spec: `getEnvironmentDataFromEnvironment`
(`environment-data-provider.ts`, not among the visible sources) — captures
environment data freshly from the ambient environment. -/
def getEnvironmentDataFromEnvironment (env : Environment) :
    EnvironmentData :=
  { toolVersion := env.axeVersion,
    startTimeUtc := env.currentTime,
    endTimeUtc := env.currentTime,
    targetPageUrl := env.pageUrl }

/-- Modelled from the spec: `defaultAxeRawSarifConverter().convert`
(`axe-raw-sarif-converter.ts`, not among the visible sources) — one raw
finding-set plus environment data becomes one SARIF log containing exactly
one run. -/
def axeRawSarifConverterConvert (rawResults : List RawRuleRun)
    (_options : ConverterOptions) (environmentData : EnvironmentData) :
    SarifLog :=
  { version := sarifVersion, schemaUri := sarifSchemaUri,
    runs := [assembleRun environmentData (normalize (.raw rawResults))] }

/-- Options of the host scanning engine's run; received by `sarifReporter`
per its reporter signature. -/
structure RunOptions where
  runOnly : Option (List String) := none
  resultTypes : Option (List String) := none
deriving DecidableEq, Repr

/-- Embedding of `sarifReporter` (`src/index.ts`, lines 29-43).  The
returned list holds the argument of each callback invocation, in order:
the function builds empty converter options, captures environment data
from the ambient environment, converts the raw results, and invokes the
callback once with the converted log. -/
def sarifReporter (env : Environment) (rawResults : List RawRuleRun)
    (_runOptions : RunOptions) : List SarifLog :=
  let converterOptions : ConverterOptions := {}
  let environmentData := getEnvironmentDataFromEnvironment env
  let sarifOutput :=
    axeRawSarifConverterConvert rawResults converterOptions environmentData
  [sarifOutput]

/-! ## Multi-input combination (`src/cli.ts`) -/

/-- Embedding of `flatten` (`src/cli.ts`, lines 78-83). -/
def flatten {α : Type} (nestedArray : List (List α)) : List α :=
  nestedArray.foldl (fun accumulator next => accumulator ++ next) []

/-- Embedding of the `combinedLog` construction (`src/cli.ts`, lines
110-113): top-level metadata spread from the first converted log, runs
concatenated across all logs. -/
def combinedLog (sarifLogs : List SarifLog) : SarifLog :=
  match sarifLogs with
  | [] => { version := "", schemaUri := "",
            runs := flatten (sarifLogs.map (fun log => log.runs)) }
  | first :: _ =>
      { first with runs := flatten (sarifLogs.map (fun log => log.runs)) }

/-- Embedding of the CLI aggregation step (`src/cli.ts`, lines 110-118):
combine the independently converted logs, then apply the baseline file
once to the combined log exactly when a baseline path was given. -/
def cliAggregate (w : BaselineWorld) (sarifLogs : List SarifLog)
    (baselineFile : Option String) : Except BaselineError SarifLog :=
  let combined := combinedLog sarifLogs
  match baselineFile with
  | some path => (applyBaselineFile w combined path).result
  | none => .ok combined

/-! ## General helper lemmas -/

/-- The CLI `flatten` helper agrees with list flattening. -/
theorem foldl_append_eq_flatten {α : Type} (L : List (List α)) :
    ∀ acc : List α,
      L.foldl (fun accumulator next => accumulator ++ next) acc =
        acc ++ L.flatten := by
  induction L with
  | nil => intro acc; simp
  | cons head tail ih => intro acc; simp [List.foldl, ih]

/-- `flatten` is list flattening. -/
theorem flatten_eq_flatten {α : Type} (L : List (List α)) :
    flatten L = L.flatten := by
  simp [flatten, foldl_append_eq_flatten]

/-- Every result record produced by the mapper carries no baseline
state. -/
theorem map_baselineState_none (catalog : List RuleCatalogEntry)
    (pageUrl : String) (findings : List CanonicalFinding) :
    findings.map (fun f => (mapResult catalog pageUrl f).baselineState) =
      List.replicate findings.length none := by
  induction findings with
  | nil => rfl
  | cons f rest ih => simp [mapResult, ih, List.replicate]

/-- A rule-id membership test over catalog entries is membership in the
projected id list. -/
theorem any_beq_iff (acc : List RuleCatalogEntry) (r : String) :
    acc.any (fun e => e.ruleId == r) = true ↔
      r ∈ acc.map (fun e => e.ruleId) := by
  constructor
  · intro hany
    obtain ⟨e, he, heq⟩ := List.any_eq_true.1 hany
    exact List.mem_map.2 ⟨e, he, by simpa using heq⟩
  · intro hmem
    obtain ⟨e, he, heq⟩ := List.mem_map.1 hmem
    exact List.any_eq_true.2 ⟨e, he, by simpa using heq⟩

/-- Projecting rule ids out of the catalog fold gives the first-seen fold
over rule ids, for any accumulator. -/
theorem foldl_catalog_map_ruleId (findings : List CanonicalFinding) :
    ∀ acc : List RuleCatalogEntry,
      (findings.foldl addFindingToCatalog acc).map (fun e => e.ruleId) =
        (findings.map (fun f => f.ruleId)).foldl
          (fun seen x => if x ∈ seen then seen else seen ++ [x])
          (acc.map (fun e => e.ruleId)) := by
  induction findings with
  | nil => intro acc; rfl
  | cons f rest ih =>
    intro acc
    simp only [List.foldl_cons, List.map_cons]
    rw [ih]
    congr 1
    by_cases hmem : f.ruleId ∈ acc.map (fun e => e.ruleId)
    · have ha : acc.any (fun e => e.ruleId == f.ruleId) = true :=
        (any_beq_iff acc f.ruleId).2 hmem
      simp [addFindingToCatalog, ha, hmem]
    · have ha : ¬ acc.any (fun e => e.ruleId == f.ruleId) = true :=
        fun h => hmem ((any_beq_iff acc f.ruleId).1 h)
      simp [addFindingToCatalog, ha, hmem, catalogEntryOf]

/-- The ids of the built catalog are the first-seen order of the findings'
rule ids. -/
theorem buildRuleCatalog_map_ruleId (findings : List CanonicalFinding) :
    (buildRuleCatalog findings).map (fun e => e.ruleId) =
      firstSeenOrder (findings.map (fun f => f.ruleId)) := by
  simpa [buildRuleCatalog, firstSeenOrder] using
    foldl_catalog_map_ruleId findings []

/-- Membership in the first-seen fold. -/
theorem firstSeen_foldl_mem (ids : List String) :
    ∀ (acc : List String) (r : String),
      (r ∈ ids.foldl
          (fun seen x => if x ∈ seen then seen else seen ++ [x]) acc) ↔
        r ∈ acc ∨ r ∈ ids := by
  induction ids with
  | nil => intro acc r; simp
  | cons x rest ih =>
    intro acc r
    simp only [List.foldl_cons]
    by_cases hx : x ∈ acc
    · rw [if_pos hx, ih]
      have hrx : r = x → r ∈ acc := fun h => h ▸ hx
      simp only [List.mem_cons]
      tauto
    · rw [if_neg hx, ih]
      simp only [List.mem_append, List.mem_singleton, List.mem_cons]
      tauto

/-- The first-seen fold preserves freedom from duplicates. -/
theorem firstSeen_foldl_nodup (ids : List String) :
    ∀ acc : List String, acc.Nodup →
      (ids.foldl
        (fun seen x => if x ∈ seen then seen else seen ++ [x]) acc).Nodup := by
  induction ids with
  | nil => intro acc h; simpa using h
  | cons x rest ih =>
    intro acc h
    simp only [List.foldl_cons]
    by_cases hx : x ∈ acc
    · rw [if_pos hx]; exact ih acc h
    · rw [if_neg hx]
      apply ih
      rw [List.nodup_append]
      exact ⟨h, List.nodup_singleton x, by simp [hx]⟩

/-- First-seen order has no duplicate ids. -/
theorem firstSeenOrder_nodup (ids : List String) :
    (firstSeenOrder ids).Nodup :=
  firstSeen_foldl_nodup ids [] List.nodup_nil

/-- First-seen order keeps exactly the ids that occur. -/
theorem firstSeenOrder_mem (ids : List String) (r : String) :
    r ∈ firstSeenOrder ids ↔ r ∈ ids := by
  simpa [firstSeenOrder] using firstSeen_foldl_mem ids [] r

/-- A catalog entry already found for a rule id survives folding further
findings into the catalog. -/
theorem find_foldl_some (findings : List CanonicalFinding) (r : String) :
    ∀ (acc : List RuleCatalogEntry) (e : RuleCatalogEntry),
      acc.find? (fun x => x.ruleId == r) = some e →
      (findings.foldl addFindingToCatalog acc).find?
          (fun x => x.ruleId == r) = some e := by
  induction findings with
  | nil => intro acc e h; exact h
  | cons f rest ih =>
    intro acc e h
    simp only [List.foldl_cons]
    apply ih
    unfold addFindingToCatalog
    split
    · exact h
    · rw [List.find?_append, h]; rfl

/-- When no catalog entry matches a rule id yet, the folded catalog's
entry for it is the one made from the first matching finding. -/
theorem find_foldl_none (findings : List CanonicalFinding) (r : String) :
    ∀ acc : List RuleCatalogEntry,
      acc.find? (fun x => x.ruleId == r) = none →
      (findings.foldl addFindingToCatalog acc).find?
          (fun x => x.ruleId == r) =
        (findings.find? (fun f => f.ruleId == r)).map catalogEntryOf := by
  induction findings with
  | nil => intro acc h; simpa using h
  | cons f rest ih =>
    intro acc h
    simp only [List.foldl_cons]
    by_cases hf : f.ruleId = r
    · have hacc : ¬ acc.any (fun e => e.ruleId == f.ruleId) = true := by
        intro hany
        obtain ⟨e, he, heq⟩ := List.any_eq_true.1 hany
        have : acc.find? (fun x => x.ruleId == r) ≠ none := by
          intro hn
          have := List.find?_eq_none.1 hn e he
          exact this (by simpa [hf] using heq)
        exact this h
      have hstep : addFindingToCatalog acc f = acc ++ [catalogEntryOf f] := by
        simp [addFindingToCatalog, hacc]
      rw [hstep]
      have hfind : (acc ++ [catalogEntryOf f]).find?
          (fun x => x.ruleId == r) = some (catalogEntryOf f) := by
        rw [List.find?_append, h]
        simp [catalogEntryOf, hf]
      rw [find_foldl_some rest r _ _ hfind]
      simp [List.find?_cons, hf]
    · have hstep : (addFindingToCatalog acc f).find?
          (fun x => x.ruleId == r) = none := by
        unfold addFindingToCatalog
        split
        · exact h
        · rw [List.find?_append, h]
          simp [catalogEntryOf, hf]
      rw [ih _ hstep]
      simp [List.find?_cons, hf]

/-- The built catalog's entry for a rule id is made from the first finding
carrying that id. -/
theorem buildRuleCatalog_find (findings : List CanonicalFinding)
    (r : String) :
    (buildRuleCatalog findings).find? (fun e => e.ruleId == r) =
      (findings.find? (fun f => f.ruleId == r)).map catalogEntryOf :=
  find_foldl_none findings r [] rfl

/-! ## Claim theorems -/

/-- Claim C1 (counterexample): on the exit path where the external process
exits non-zero, `applyBaselineFile` throws without removing the temporary
working directory, so cleanup does not happen on every exit path. -/
theorem applyBaselineFile_tmpDir_leak_on_failure :
    isSuccess (applyBaselineFile
        { spawnResult := { error := none, status := 1, stdout := "boom" },
          annotatedResult := none }
        { version := "2.1.0", schemaUri := "schema", runs := [] }
        "baseline.sarif").result = false
    ∧ (applyBaselineFile
        { spawnResult := { error := none, status := 1, stdout := "boom" },
          annotatedResult := none }
        { version := "2.1.0", schemaUri := "schema", runs := [] }
        "baseline.sarif").tmpDirRemoved = false :=
  ⟨rfl, rfl⟩

/-- Claim C1 (amended): `applyBaselineFile` removes the temporary working
directory exactly on the success path; on each throwing exit path (launch
failure, non-zero exit, unreadable or unparseable annotated output) the
temporary directory is left behind. -/
theorem applyBaselineFile_tmpDirRemoved_iff_success :
    ∀ (w : BaselineWorld) (results : SarifLog) (baselineFile : String),
      (applyBaselineFile w results baselineFile).tmpDirRemoved =
        isSuccess (applyBaselineFile w results baselineFile).result := by
  intro w results baselineFile
  obtain ⟨⟨err, status, sout⟩, ann⟩ := w
  cases err with
  | some cause => rfl
  | none =>
    by_cases hs : status = 0
    · cases ann <;> simp [applyBaselineFile, isSuccess, hs]
    · simp [applyBaselineFile, isSuccess, hs]

/-- Claim C2: `applyBaselineFile` returns normally exactly when the
external process launches, exits with code 0 and the annotated output file
parses; it throws a launch error carrying the underlying cause when the
process cannot start, an execution error carrying the exit code and the
captured standard output when the process exits non-zero, and a parse
error when the annotated output does not parse. -/
theorem applyBaselineFile_error_conditions :
    ∀ (w : BaselineWorld) (results : SarifLog) (baselineFile : String),
      (isSuccess (applyBaselineFile w results baselineFile).result = true ↔
        w.spawnResult.error = none ∧ w.spawnResult.status = 0 ∧
          w.annotatedResult ≠ none)
      ∧ (∀ cause, w.spawnResult.error = some cause →
          ∃ msgHead,
            (applyBaselineFile w results baselineFile).result =
              .error (.launchError (msgHead ++ cause)))
      ∧ (w.spawnResult.error = none → w.spawnResult.status ≠ 0 →
          ∃ msgHead msgMid,
            (applyBaselineFile w results baselineFile).result =
              .error (.executionError
                (msgHead ++ toString w.spawnResult.status ++ msgMid
                  ++ w.spawnResult.stdout)))
      ∧ (w.spawnResult.error = none → w.spawnResult.status = 0 →
          w.annotatedResult = none →
          (applyBaselineFile w results baselineFile).result =
            .error .resultParseError)
      ∧ (∀ annotated, w.spawnResult.error = none →
          w.spawnResult.status = 0 → w.annotatedResult = some annotated →
          (applyBaselineFile w results baselineFile).result =
            .ok annotated) := by
  intro w results baselineFile
  obtain ⟨⟨err, status, sout⟩, ann⟩ := w
  refine ⟨?_, ?_, ?_, ?_, ?_⟩
  · cases err with
    | some cause => simp [applyBaselineFile, isSuccess]
    | none =>
      by_cases hs : status = 0
      · cases ann <;> simp [applyBaselineFile, isSuccess, hs]
      · simp [applyBaselineFile, isSuccess, hs]
  · intro cause hc
    cases hc
    exact ⟨_, rfl⟩
  · intro he hs
    cases he
    refine ⟨"SARIF Multitool failed with exit code ", ". Full output:\n", ?_⟩
    simp [applyBaselineFile, hs]
  · intro he hs ha
    cases he
    cases ha
    have hs0 : status = 0 := hs
    simp [applyBaselineFile, hs0]
  · intro annotated he hs ha
    cases he
    cases ha
    have hs0 : status = 0 := hs
    simp [applyBaselineFile, hs0]

/-- Claim C2 (witness): at a world whose process exits 0 but leaves an
unparseable annotated file, the call throws the parse error. -/
theorem applyBaselineFile_error_conditions_witness :
    (applyBaselineFile
        { spawnResult := { error := none, status := 0, stdout := "" },
          annotatedResult := none }
        { version := "2.1.0", schemaUri := "schema", runs := [] }
        "baseline.sarif").result = .error .resultParseError :=
  (applyBaselineFile_error_conditions
      { spawnResult := { error := none, status := 0, stdout := "" },
        annotatedResult := none }
      { version := "2.1.0", schemaUri := "schema", runs := [] }
      "baseline.sarif").2.2.2.1 rfl rfl rfl

/-- Claim C3: the converted log contains exactly one run, and the baseline
file is applied to that single-run log via `applyBaselineFile` exactly
when the options carry a non-null `baselineFile` path. -/
theorem convertAxeToSarif_single_run_baseline :
    ∀ (w : BaselineWorld) (axeResults : AxeResults)
      (options : Option ConverterOptions),
      (sarifConverterConvert axeResults (options.getD {})).runs.length = 1
      ∧ (∀ path, (options.getD {}).baselineFile = some path →
          convertAxeToSarif w axeResults options =
            (applyBaselineFile w
              (sarifConverterConvert axeResults (options.getD {}))
              path).result)
      ∧ ((options.getD {}).baselineFile = none →
          convertAxeToSarif w axeResults options =
            .ok (sarifConverterConvert axeResults (options.getD {}))) := by
  intro w axeResults options
  refine ⟨rfl, ?_, ?_⟩
  · intro path hp
    simp [convertAxeToSarif, hp]
  · intro hn
    simp [convertAxeToSarif, hn]

/-- Claim C3 (witness): with options carrying a baseline path, the
conversion routes the single-run log through `applyBaselineFile`. -/
theorem convertAxeToSarif_single_run_baseline_witness :
    convertAxeToSarif
        { spawnResult := { error := none, status := 0, stdout := "" },
          annotatedResult := none }
        { url := "https://example.com", timestamp := "2018-03-23T21:36:58.321Z",
          engineVersion := "3.4.1", input := .v1 [] }
        (some { baselineFile := some "baseline.sarif" }) =
      (applyBaselineFile
        { spawnResult := { error := none, status := 0, stdout := "" },
          annotatedResult := none }
        (sarifConverterConvert
          { url := "https://example.com", timestamp := "2018-03-23T21:36:58.321Z",
            engineVersion := "3.4.1", input := .v1 [] }
          { baselineFile := some "baseline.sarif" })
        "baseline.sarif").result :=
  (convertAxeToSarif_single_run_baseline
      { spawnResult := { error := none, status := 0, stdout := "" },
        annotatedResult := none }
      { url := "https://example.com", timestamp := "2018-03-23T21:36:58.321Z",
        engineVersion := "3.4.1", input := .v1 [] }
      (some { baselineFile := some "baseline.sarif" })).2.1
    "baseline.sarif" rfl

/-- Claim C4: `sarifReporter` invokes its callback exactly once, with a
log of exactly one run built from freshly captured environment data, and
no result of that log carries a baseline state (no baseline is applied on
this path). -/
theorem sarifReporter_single_callback_no_baseline :
    ∀ (env : Environment) (rawResults : List RawRuleRun)
      (runOptions : RunOptions),
      (sarifReporter env rawResults runOptions).length = 1
      ∧ sarifReporter env rawResults runOptions =
          [axeRawSarifConverterConvert rawResults {}
            (getEnvironmentDataFromEnvironment env)]
      ∧ (sarifReporter env rawResults runOptions).map
          (fun log => log.runs.length) = [1]
      ∧ (sarifReporter env rawResults runOptions).map
          (fun log => log.runs.map (fun run => run.invocation)) =
          [[getEnvironmentDataFromEnvironment env]]
      ∧ (sarifReporter env rawResults runOptions).map
          (fun log => log.runs.map (fun run =>
            run.results.map (fun r => r.baselineState))) =
          [[List.replicate (normalize (.raw rawResults)).length none]] := by
  intro env rawResults runOptions
  refine ⟨rfl, rfl, rfl, rfl, ?_⟩
  simp [sarifReporter, axeRawSarifConverterConvert, assembleRun,
    List.map_map, Function.comp_def, map_baselineState_none]

/-- Claim C5: the combined log takes its top-level metadata from the first
converted log and concatenates the runs of all inputs in order, so its run
count is the sum of the inputs' run counts; the baseline file, when
requested, is applied once to the combined log. -/
theorem combinedLog_concatenates_runs :
    ∀ (first : SarifLog) (rest : List SarifLog) (w : BaselineWorld)
      (path : String),
      (combinedLog (first :: rest)).version = first.version
      ∧ (combinedLog (first :: rest)).schemaUri = first.schemaUri
      ∧ (combinedLog (first :: rest)).runs =
          ((first :: rest).map (fun log => log.runs)).flatten
      ∧ (combinedLog (first :: rest)).runs.length =
          ((first :: rest).map (fun log => log.runs.length)).sum
      ∧ cliAggregate w (first :: rest) (some path) =
          (applyBaselineFile w (combinedLog (first :: rest)) path).result
      ∧ cliAggregate w (first :: rest) none =
          .ok (combinedLog (first :: rest)) := by
  intro first rest w path
  refine ⟨rfl, rfl, ?_, ?_, rfl, rfl⟩
  · simp [combinedLog, flatten_eq_flatten]
  · simp [combinedLog, flatten_eq_flatten, List.length_flatten,
      Function.comp_def]

/-- Claim C6: for every supported input shape, every produced result
record's level is determined by the finding's outcome category exactly as
violation to error, incomplete to warning, pass to none and inapplicable
to none. -/
theorem result_level_mapping :
    ∀ (axeResults : AxeResults) (options : ConverterOptions),
      (sarifConverterConvert axeResults options).runs.map
          (fun run => run.results.map (fun r => r.level)) =
        [(normalize axeResults.input).map (fun f =>
          match f.outcomeCategory with
          | .violation => SarifLevel.error
          | .incomplete => SarifLevel.warning
          | .pass => SarifLevel.none
          | .inapplicable => SarifLevel.none)] := by
  intro axeResults options
  simp only [sarifConverterConvert, assembleRun, List.map_cons,
    List.map_nil, List.map_map, List.cons.injEq, and_true]
  apply List.map_congr_left
  intro f _
  cases hf : f.outcomeCategory <;>
    simp [Function.comp_def, mapResult, levelFromOutcome, hf]

/-- Claim C7: the fingerprint map of a produced result record is a
function of the finding's rule id and normalized target selector only;
two findings agreeing on those fields receive identical fingerprints even
when their messages (or the catalog and page url in scope) differ. -/
theorem fingerprints_ignore_message :
    ∀ (f g : CanonicalFinding) (catalogF catalogG : List RuleCatalogEntry)
      (urlF urlG : String),
      f.ruleId = g.ruleId → f.targetSelector = g.targetSelector →
      (mapResult catalogF urlF f).fingerprints =
        (mapResult catalogG urlG g).fingerprints := by
  intro f g catalogF catalogG urlF urlG h1 h2
  simp [mapResult, buildFingerprint, h1, h2]

/-- Claim C7 (witness): two findings sharing rule id and selector but with
different messages, snippets, catalogs and urls receive identical
fingerprint maps. -/
theorem fingerprints_ignore_message_witness :
    (mapResult [] "https://a.example"
        { ruleId := "color-contrast", ruleDescription := "d1",
          helpUri := "h1", outcomeCategory := .violation,
          targetSelector := ["iframe#f", "#button"], snippet := some "<b>",
          message := "Element has insufficient contrast" }).fingerprints =
      (mapResult [{ ruleId := "color-contrast", ruleDescription := "d", helpUri := "h" }] "https://b.example"
        { ruleId := "color-contrast", ruleDescription := "d2",
          helpUri := "h2", outcomeCategory := .incomplete,
          targetSelector := ["iframe#f", "#button"], snippet := none,
          message := "A different message" }).fingerprints :=
  fingerprints_ignore_message
    { ruleId := "color-contrast", ruleDescription := "d1",
      helpUri := "h1", outcomeCategory := .violation,
      targetSelector := ["iframe#f", "#button"], snippet := some "<b>",
      message := "Element has insufficient contrast" }
    { ruleId := "color-contrast", ruleDescription := "d2",
      helpUri := "h2", outcomeCategory := .incomplete,
      targetSelector := ["iframe#f", "#button"], snippet := none,
      message := "A different message" }
    [] [{ ruleId := "color-contrast", ruleDescription := "d", helpUri := "h" }]
    "https://a.example" "https://b.example" rfl rfl

/-- Claim C8: with no baseline option, `convertAxeToSarif` is a
deterministic function of its input — two invocations in arbitrary
ambient worlds produce identical logs (timestamps included, since the
invocation block is derived from the input's own scan timestamp). -/
theorem convertAxeToSarif_deterministic :
    ∀ (axeResults : AxeResults) (options : Option ConverterOptions)
      (w1 w2 : BaselineWorld),
      (options.getD {}).baselineFile = none →
      convertAxeToSarif w1 axeResults options =
        convertAxeToSarif w2 axeResults options := by
  intro axeResults options w1 w2 h
  simp [convertAxeToSarif, h]

/-- Claim C8 (witness): two invocations in visibly different worlds on the
same input with no options agree. -/
theorem convertAxeToSarif_deterministic_witness :
    convertAxeToSarif
        { spawnResult := { error := none, status := 0, stdout := "a" },
          annotatedResult := none }
        { url := "https://example.com", timestamp := "2018-03-23T21:36:58.321Z",
          engineVersion := "3.4.1", input := .v1 [] } none =
      convertAxeToSarif
        { spawnResult := { error := some "ENOENT", status := 1, stdout := "b" },
          annotatedResult := none }
        { url := "https://example.com", timestamp := "2018-03-23T21:36:58.321Z",
          engineVersion := "3.4.1", input := .v1 [] } none :=
  convertAxeToSarif_deterministic
    { url := "https://example.com", timestamp := "2018-03-23T21:36:58.321Z",
      engineVersion := "3.4.1", input := .v1 [] }
    none
    { spawnResult := { error := none, status := 0, stdout := "a" },
      annotatedResult := none }
    { spawnResult := { error := some "ENOENT", status := 1, stdout := "b" },
      annotatedResult := none }
    rfl

/-- Claim C10: the run options received by `sarifReporter` have no effect
on the log passed to the callback. -/
theorem sarifReporter_ignores_runOptions :
    ∀ (env : Environment) (rawResults : List RawRuleRun)
      (runOptions1 runOptions2 : RunOptions),
      sarifReporter env rawResults runOptions1 =
        sarifReporter env rawResults runOptions2 := by
  intro env rawResults runOptions1 runOptions2
  rfl

/-- Claim C9: the rule catalog holds exactly one entry per observed rule
id, carrying the description and help text of the first occurrence;
catalog ordinals are injective (the projected id list has no duplicates)
and follow first-seen order; and every result record of a shared rule id
references the same catalog ordinal. -/
theorem ruleCatalog_dedup :
    ∀ (findings : List CanonicalFinding) (r pageUrl : String),
      (∃ f, f ∈ findings ∧ f.ruleId = r) →
      ((buildRuleCatalog findings).countP (fun e => e.ruleId == r) = 1
      ∧ (buildRuleCatalog findings).find? (fun e => e.ruleId == r) =
          (findings.find? (fun f => f.ruleId == r)).map catalogEntryOf
      ∧ (buildRuleCatalog findings).map (fun e => e.ruleId) =
          firstSeenOrder (findings.map (fun f => f.ruleId))
      ∧ ((buildRuleCatalog findings).map (fun e => e.ruleId)).Nodup
      ∧ ∀ x, x ∈ findings → x.ruleId = r →
          (mapResult (buildRuleCatalog findings) pageUrl x).ruleIndex =
            ruleIndexOf (buildRuleCatalog findings) r) := by
  intro findings r pageUrl hex
  have hids := buildRuleCatalog_map_ruleId findings
  have hnd : ((buildRuleCatalog findings).map (fun e => e.ruleId)).Nodup := by
    rw [hids]; exact firstSeenOrder_nodup _
  refine ⟨?_, buildRuleCatalog_find findings r, hids, hnd, ?_⟩
  · obtain ⟨f, hf, hfr⟩ := hex
    have hmem : r ∈ (buildRuleCatalog findings).map (fun e => e.ruleId) := by
      rw [hids, firstSeenOrder_mem]
      exact List.mem_map.2 ⟨f, hf, hfr⟩
    have h1 : ((buildRuleCatalog findings).map (fun e => e.ruleId)).count r =
        (buildRuleCatalog findings).countP (fun e => e.ruleId == r) := by
      show ((buildRuleCatalog findings).map (fun e => e.ruleId)).countP
          (fun x => x == r) = _
      rw [List.countP_map]
      rfl
    rw [← h1]
    exact List.count_eq_one_of_mem hnd hmem
  · intro x hx hxr
    simp [mapResult, ruleIndexOf, hxr]

/-- Claim C9 (witness): two findings sharing one rule id with divergent
descriptions yield a catalog with exactly one entry for that id. -/
theorem ruleCatalog_dedup_witness :
    (buildRuleCatalog
        [{ ruleId := "color-contrast", ruleDescription := "first text",
           helpUri := "https://help/1", outcomeCategory := .violation,
           targetSelector := ["#a"], snippet := none, message := "m1" },
         { ruleId := "color-contrast", ruleDescription := "second text",
           helpUri := "https://help/2", outcomeCategory := .violation,
           targetSelector := ["#b"], snippet := none, message := "m2" }]).countP
      (fun e => e.ruleId == "color-contrast") = 1 :=
  (ruleCatalog_dedup
      [{ ruleId := "color-contrast", ruleDescription := "first text",
         helpUri := "https://help/1", outcomeCategory := .violation,
         targetSelector := ["#a"], snippet := none, message := "m1" },
       { ruleId := "color-contrast", ruleDescription := "second text",
         helpUri := "https://help/2", outcomeCategory := .violation,
         targetSelector := ["#b"], snippet := none, message := "m2" }]
      "color-contrast" "https://example.com"
      ⟨{ ruleId := "color-contrast", ruleDescription := "first text",
         helpUri := "https://help/1", outcomeCategory := .violation,
         targetSelector := ["#a"], snippet := none, message := "m1" },
        List.mem_cons_self _ _, rfl⟩).1

end AxeSarif
